import Mathlib

/-!
Shallow embedding of the uDashboard configuration core (`src/config.rs`).

Rust `f64` values are modelled exactly as rationals (`ℚ`); every claim at
stake is decided by exact arithmetic on inputs where `f64` computes exactly.
Rust `as i32` casts are modelled as truncation toward zero with saturation
into the i32 range, Rust `i32` division and remainder as `Int.tdiv` /
`Int.tmod` (both truncate toward zero, the remainder keeping the dividend's
sign), and the `format!` width / precision / zero-fill conventions are spelled
out as explicit string constructions.
-/

namespace UDash

/-- Rust `struct Color(pub Float, pub Float, pub Float, pub Float)`. -/
structure Color where
  r : ℚ
  g : ℚ
  b : ℚ
  a : ℚ
deriving DecidableEq

/-- Rust `enum Label` with variants `None`, `Plain`, `Sized`, `Styled`. -/
inductive Label where
  | None
  | Plain (t : String)
  | Sized (t : String) (s : ℚ)
  | Styled (t : String) (s : ℚ) (c : Color)
deriving DecidableEq

/-- Rust `Label::append`: concatenate `text` onto the text payload, keeping
the variant and its non-text fields; `None` becomes `Plain(text)`. -/
def Label.append (l : Label) (text : String) : Label :=
  match l with
  | Label.None => Label.Plain text
  | Label.Plain t => Label.Plain (t ++ text)
  | Label.Sized t s => Label.Sized (t ++ text) s
  | Label.Styled t s c => Label.Styled (t ++ text) s c

/-- Rust `enum GaugeStyle`. -/
inductive GaugeStyle where
  | IndicatorOnly
  | Outline
  | Filled
  | Dashed
deriving DecidableEq

/-- Rust `enum Divisions`. -/
inductive Divisions where
  | None
  | Uniform (ticks : List ℚ)
  | MajorMinor (major : List (Label × ℚ)) (minor : List ℚ)
deriving DecidableEq

/-- Rust `enum Format`. -/
inductive Format where
  | Integer (width : ℕ)
  | Decimal (intW : ℕ) (dec : ℕ)
  | Time (scale : ℚ)
deriving DecidableEq

/-- Left-pad `s` with copies of `c` up to a minimum total width `w`
(the semantics of a Rust format width: the whole field, never truncated). -/
def padLeftWith (c : Char) (w : ℕ) (s : String) : String :=
  String.mk (List.replicate (w - s.length) c) ++ s

/-- Decimal digit string of an integer, e.g. `-3` renders as `"-3"`. -/
def intRepr (n : ℤ) : String :=
  if n < 0 then "-" ++ Nat.repr n.natAbs else Nat.repr n.natAbs

/-- Rust integer formatting with a width: right-justified, space-padded. -/
def padInt (w : ℕ) (n : ℤ) : String := padLeftWith ' ' w (intRepr n)

/-- Rust integer formatting with a zero-fill width: the pad zeros go after
the sign, and the field is never truncated. -/
def zeroPadInt (w : ℕ) (n : ℤ) : String :=
  if n < 0 then "-" ++ padLeftWith '0' (w - 1) (Nat.repr n.natAbs)
  else padLeftWith '0' w (Nat.repr n.natAbs)

/-- Truncation of a rational toward zero (the rounding direction of a Rust
float-to-integer cast). -/
def ratTrunc (q : ℚ) : ℤ := if 0 ≤ q then ⌊q⌋ else -⌊-q⌋

/-- Saturating clamp into the i32 range (Rust `as i32` saturates). -/
def i32Sat (n : ℤ) : ℤ :=
  if n < -(2 ^ 31) then -(2 ^ 31) else if 2 ^ 31 - 1 < n then 2 ^ 31 - 1 else n

/-- Rust `expr as i32` on a float value: truncate toward zero, saturating. -/
def toI32 (q : ℚ) : ℤ := i32Sat (ratTrunc q)

/-- Round a rational to the nearest integer, ties to even (the rounding used
when Rust prints a float at a fixed precision). -/
def roundHalfEven (q : ℚ) : ℤ :=
  if q - ⌊q⌋ < 1 / 2 then ⌊q⌋
  else if 1 / 2 < q - ⌊q⌋ then ⌊q⌋ + 1
  else if ⌊q⌋ % 2 = 0 then ⌊q⌋ else ⌊q⌋ + 1

/-- Exactly `d` zero-padded decimal digits of `fp` (meaningful for
`fp < 10 ^ d`), most significant first. -/
def fracStr (d : ℕ) (fp : ℕ) : String :=
  String.mk ((List.range d).map (fun i => Nat.digitChar (fp / 10 ^ (d - 1 - i) % 10)))

/-- Fixed-point rendering of `v` with exactly `dec` fraction digits,
mirroring Rust float Display with an explicit precision: round to `dec`
decimals (ties to even), print sign, integer digits, and — when `dec > 0` —
a point followed by exactly `dec` zero-padded fraction digits. -/
def decCore (dec : ℕ) (v : ℚ) : String :=
  let n : ℤ := roundHalfEven (v * 10 ^ dec)
  let sign : String := if n < 0 then "-" else ""
  if dec = 0 then sign ++ Nat.repr n.natAbs
  else sign ++ Nat.repr (n.natAbs / 10 ^ dec) ++ "." ++ fracStr dec (n.natAbs % 10 ^ dec)

/-- Rust `Format::format_value` (src/config.rs lines 70-98). -/
def Format.format_value (f : Format) (value : ℚ) : String :=
  match f with
  | Format.Integer width => padInt width (toI32 value)
  | Format.Decimal intW dec => padLeftWith ' ' intW (decCore dec value)
  | Format.Time scale =>
    let seconds := value * scale
    let subseconds := toI32 (seconds * 100)
    let minutes := (toI32 seconds).tdiv 60
    let hours := minutes.tdiv 60
    padInt 2 hours ++ ":" ++ zeroPadInt 2 (minutes.tmod 60) ++ ":" ++
      zeroPadInt 2 ((toI32 seconds).tmod 60) ++ "." ++ zeroPadInt 2 (subseconds.tmod 100)

/-- Rendering of the `Time` format as the spec words it, for comparison with
the code: `subseconds = floor(seconds*100) mod 100` with a mathematical
(always nonnegative) `mod`, `minutes = floor(seconds) / 60` and
`hours = minutes / 60` by integer division (`Int` division and `%` here are
Euclidean), fields laid out as `H:MM:SS.ss`. -/
def timeSpecRepr (scale v : ℚ) : String :=
  let seconds := v * scale
  let ss := ⌊seconds * 100⌋ % 100
  let minutes := ⌊seconds⌋ / 60
  let hours := minutes / 60
  padInt 2 hours ++ ":" ++ zeroPadInt 2 (minutes % 60) ++ ":" ++
    zeroPadInt 2 (⌊seconds⌋ % 60) ++ "." ++ zeroPadInt 2 ss

/-- Rust `struct Scale(pub Float, pub Float, pub Divisions, pub GaugeStyle)`;
field `min` is the tuple slot `.0`, field `max` is `.1`. -/
structure Scale where
  min : ℚ
  max : ℚ
  divisions : Divisions
  style : GaugeStyle

/-- Rust `Scale::range`: `self.1 - self.0`. -/
def Scale.range (s : Scale) : ℚ := s.max - s.min

/-- Rust `Scale::to_percent`:
`((val - self.0) / self.range()).max(self.0).min(self.1)`. -/
def Scale.to_percent (s : Scale) (val : ℚ) : ℚ :=
  Min.min (Max.max ((val - s.min) / s.range) s.min) s.max

/-- Rust `Scale::to_angle`: `1.25 * PI * (self.to_percent(val) - 0.5)`. -/
noncomputable def Scale.to_angle (s : Scale) (val : ℚ) : ℝ :=
  1.25 * Real.pi * ((s.to_percent val : ℝ) - 0.5)

/-- Rust `enum State`. -/
inductive State where
  | Default
  | Alarm (name : String)
deriving DecidableEq

/-- Rust `enum Test`. -/
inductive Test where
  | Always
  | Never
  | LessThan (x : ℚ)
  | GreaterThan (x : ℚ)
  | Equal (x : ℚ)
  | Between (lo : ℚ) (hi : ℚ)
deriving DecidableEq

/-- Rust `struct When(String, Test, State)`. -/
structure When where
  channel : String
  test : Test
  state : State

/-- Rust `type Logic = Vec<When>`. -/
abbrev Logic := List When

/-- Modelled from the spec: the per-rule predicate semantics of section 4.3
(the repository declares `Test` but ships no evaluator): `Always` always
matches, `Never` never, `LessThan` and `GreaterThan` are strict, `Equal` is
exact equality, `Between` is the closed interval. -/
def Test.satisfied (t : Test) (v : ℚ) : Bool :=
  match t with
  | Test.Always => true
  | Test.Never => false
  | Test.LessThan x => decide (v < x)
  | Test.GreaterThan x => decide (x < v)
  | Test.Equal x => decide (v = x)
  | Test.Between lo hi => decide (lo ≤ v ∧ v ≤ hi)

/-- Modelled from the spec: the logic evaluator of section 4.3 (absent from
the repository, which only declares the rule data types): scan the rules in
order, skip rules bound to another channel, return the state of the first
rule whose test is satisfied by the current value of channel `c`, and
`State.Default` when no rule matches. -/
def resolve (rules : Logic) (c : String) (lookup : String → ℚ) : State :=
  match rules with
  | [] => State.Default
  | w :: rest =>
    if w.channel == c && w.test.satisfied (lookup c) then w.state
    else resolve rest c lookup

/-- Rust `struct Bounds`. -/
structure Bounds where
  x : ℚ
  y : ℚ
  width : ℚ
  height : ℚ
deriving DecidableEq

/-- Rust `Bounds::center`. -/
def Bounds.center (b : Bounds) : ℚ × ℚ :=
  (b.x + b.width * 0.5, b.y + b.height * 0.5)

/-- Rust `Bounds::radius`: `self.width.min(self.height) * 0.5`. -/
def Bounds.radius (b : Bounds) : ℚ := Min.min b.width b.height * 0.5

/-- Rust `Bounds::inset`. -/
def Bounds.inset (b : Bounds) (pixels : ℚ) : Bounds :=
  Bounds.mk (b.x + pixels) (b.y + pixels) (b.width - pixels * 2) (b.height - pixels * 2)

/-- Rust `Bounds::top_left`. -/
def Bounds.top_left (b : Bounds) : ℚ × ℚ := (b.x, b.y)

/-- Rust `Bounds::top_right`. -/
def Bounds.top_right (b : Bounds) : ℚ × ℚ := (b.x + b.width, b.y)

/-- Rust `Bounds::bottom_left`. -/
def Bounds.bottom_left (b : Bounds) : ℚ × ℚ := (b.x, b.y + b.height)

/-- Rust `Bounds::bottom_right`. -/
def Bounds.bottom_right (b : Bounds) : ℚ × ℚ := (b.x + b.width, b.y + b.height)

/-- The 0..100 scale used by the spec's concrete examples. -/
def demoScale : Scale := Scale.mk 0 100 Divisions.None GaugeStyle.Filled

/-- The two-rule logic used by the spec's concrete examples. -/
def demoRules : Logic :=
  [When.mk "temp" (Test.GreaterThan 100) (State.Alarm "hot"),
   When.mk "temp" (Test.LessThan 0) (State.Alarm "cold")]

/-! Helper lemmas shared by the claim theorems below. -/

lemma length_mk (l : List Char) : (String.mk l).length = l.length := rfl

lemma length_padLeftWith (c : Char) (w : ℕ) (s : String) :
    (padLeftWith c w s).length = Max.max w s.length := by
  simp [padLeftWith, String.length_append, length_mk]
  omega

lemma digitChar_isDigit (m : ℕ) (h : m < 10) : (Nat.digitChar m).isDigit = true := by
  interval_cases m <;> decide

lemma decCore_pos (d : ℕ) (v : ℚ) (hd : d ≠ 0) :
    decCore d v =
      (if roundHalfEven (v * 10 ^ d) < 0 then "-" else "") ++
        Nat.repr ((roundHalfEven (v * 10 ^ d)).natAbs / 10 ^ d) ++ "." ++
        fracStr d ((roundHalfEven (v * 10 ^ d)).natAbs % 10 ^ d) := by
  rw [decCore, if_neg hd]

lemma rhe750 : roundHalfEven ((15 : ℚ) / 2 * 10 ^ 2) = 750 := by
  rw [roundHalfEven]
  norm_num

lemma toI32_42 : toI32 (42 : ℚ) = 42 := by
  rw [toI32, ratTrunc]
  norm_num [i32Sat]

lemma toI32_12345 : toI32 (12345 : ℚ) = 12345 := by
  rw [toI32, ratTrunc]
  norm_num [i32Sat]

lemma toI32_neg_seven_halves : toI32 ((-7 : ℚ) / 2) = -3 := by
  rw [toI32, ratTrunc]
  norm_num [i32Sat]

lemma toI32_3661_mul : toI32 ((3661 : ℚ) * 1) = 3661 := by
  rw [toI32, ratTrunc]
  norm_num [i32Sat]

lemma toI32_3661_mul_100 : toI32 ((3661 : ℚ) * 1 * 100) = 366100 := by
  rw [toI32, ratTrunc]
  norm_num [i32Sat]

lemma toI32_neg_half_mul : toI32 ((-1 : ℚ) / 2 * 1) = 0 := by
  rw [toI32, ratTrunc]
  norm_num [i32Sat]

lemma toI32_neg_half_mul_100 : toI32 ((-1 : ℚ) / 2 * 1 * 100) = -50 := by
  rw [toI32, ratTrunc]
  norm_num [i32Sat]

lemma demo_to_percent_0 : demoScale.to_percent 0 = 0 := by
  norm_num [demoScale, Scale.to_percent, Scale.range, min_def, max_def]

lemma demo_to_percent_100 : demoScale.to_percent 100 = 1 := by
  norm_num [demoScale, Scale.to_percent, Scale.range, min_def, max_def]

/-! The claim theorems. -/

/-- C1: for every scale satisfying the documented invariant `min < max` and
every value `v`, `to_percent` computes `(v - min) / range()` and clamps that
quotient against the scale's own endpoints, so the result equals
`max(min, min(max, (v - min) / (max - min)))`. -/
theorem to_percent_clamps_to_scale_endpoints (s : Scale) (v : ℚ) (h : s.min < s.max) :
    s.to_percent v = Max.max s.min (Min.min s.max ((v - s.min) / (s.max - s.min))) := by
  unfold Scale.to_percent Scale.range
  rcases le_total ((v - s.min) / (s.max - s.min)) s.min with h1 | h1 <;>
    rcases le_total ((v - s.min) / (s.max - s.min)) s.max with h2 | h2 <;>
    simp [min_def, max_def] <;> split_ifs <;> linarith

/-- C1 witness: the clamp identity instantiated at the 0..100 scale and
value 150. -/
theorem to_percent_clamps_to_scale_endpoints_witness :
    demoScale.min < demoScale.max ∧
      demoScale.to_percent 150 =
        Max.max demoScale.min
          (Min.min demoScale.max ((150 - demoScale.min) / (demoScale.max - demoScale.min))) :=
  ⟨by norm_num [demoScale],
   to_percent_clamps_to_scale_endpoints demoScale 150 (by norm_num [demoScale])⟩

/-- C2 counterexample: `Decimal(3,2).format_value(7.5)` is `"7.50"`, not the
claimed `"  7.50"`: the Rust width `3` bounds the whole rendered string, not
the integer part, and `"7.50"` is already 4 characters wide. -/
theorem decimal_width_counterexample :
    Format.format_value (Format.Decimal 3 2) (15 / 2) = "7.50" ∧
      Format.format_value (Format.Decimal 3 2) (15 / 2) ≠ "  7.50" := by
  have h : Format.format_value (Format.Decimal 3 2) (15 / 2) = "7.50" := by
    show padLeftWith ' ' 3 (decCore 2 (15 / 2)) = "7.50"
    rw [decCore, rhe750]
    decide
  exact ⟨h, by rw [h]; decide⟩

/-- C2 (amended): `Decimal(intDigits, decDigits).format_value(v)` renders `v`
with exactly `decDigits` digits after the decimal point and left-pads with
spaces so that the WHOLE string has minimum width `intDigits`; in particular
`Decimal(3,2).format_value(7.5) = "7.50"`, and `"  7.50"` arises from
`Decimal(6,2)`. -/
theorem decimal_format_minimum_total_width :
    (∀ (i d : ℕ) (v : ℚ), i ≤ (Format.format_value (Format.Decimal i d) v).length ∧
      (0 < d → ∃ pre : String, ∃ post : List Char,
        Format.format_value (Format.Decimal i d) v = pre ++ "." ++ String.mk post ∧
        post.length = d ∧ ∀ ch ∈ post, ch.isDigit = true)) ∧
    Format.format_value (Format.Decimal 3 2) (15 / 2) = "7.50" ∧
    Format.format_value (Format.Decimal 6 2) (15 / 2) = "  7.50" := by
  refine ⟨fun i d v => ⟨?_, ?_⟩, ?_, ?_⟩
  · have hfv : Format.format_value (Format.Decimal i d) v = padLeftWith ' ' i (decCore d v) := rfl
    rw [hfv, length_padLeftWith]
    exact le_max_left _ _
  · intro hd
    refine ⟨String.mk (List.replicate (i - (decCore d v).length) ' ') ++
        ((if roundHalfEven (v * 10 ^ d) < 0 then "-" else "") ++
          Nat.repr ((roundHalfEven (v * 10 ^ d)).natAbs / 10 ^ d)),
      (List.range d).map
        (fun j => Nat.digitChar ((roundHalfEven (v * 10 ^ d)).natAbs % 10 ^ d / 10 ^ (d - 1 - j) % 10)),
      ?_, by simp, ?_⟩
    · show padLeftWith ' ' i (decCore d v) = _
      rw [padLeftWith, decCore_pos d v hd.ne']
      simp [fracStr, String.append_assoc]
    · intro ch hch
      simp only [List.mem_map] at hch
      obtain ⟨j, hj, rfl⟩ := hch
      exact digitChar_isDigit _ (Nat.mod_lt _ (by norm_num))
  · show padLeftWith ' ' 3 (decCore 2 (15 / 2)) = "7.50"
    rw [decCore, rhe750]
    decide
  · show padLeftWith ' ' 6 (decCore 2 (15 / 2)) = "  7.50"
    rw [decCore, rhe750]
    decide

/-- C2 witness: the shape facts instantiated at `Decimal(6,2)` and value 7.5,
with the `0 < decDigits` hypothesis discharged. -/
theorem decimal_format_minimum_total_width_witness :
    6 ≤ (Format.format_value (Format.Decimal 6 2) (15 / 2)).length ∧
      ∃ pre : String, ∃ post : List Char,
        Format.format_value (Format.Decimal 6 2) (15 / 2) = pre ++ "." ++ String.mk post ∧
        post.length = 2 ∧ ∀ ch ∈ post, ch.isDigit = true :=
  ⟨(decimal_format_minimum_total_width.1 6 2 (15 / 2)).1,
   (decimal_format_minimum_total_width.1 6 2 (15 / 2)).2 (by norm_num)⟩

/-- C3 counterexample: at value `-0.5` with scale 1 the code truncates toward
zero and keeps the sign on the remainder, printing `" 0:00:00.-50"`, while the
claim's `floor`-and-mathematical-`mod` formula would give subseconds `50`
(rendered `"-1:59:59.50"` with Euclidean division throughout); the two
disagree. -/
theorem time_format_negative_counterexample :
    Format.format_value (Format.Time 1) (-1 / 2) = " 0:00:00.-50" ∧
    timeSpecRepr 1 (-1 / 2) = "-1:59:59.50" ∧
    Format.format_value (Format.Time 1) (-1 / 2) ≠ timeSpecRepr 1 (-1 / 2) := by
  have h1 : Format.format_value (Format.Time 1) (-1 / 2) = " 0:00:00.-50" := by
    show padInt 2 (((toI32 ((-1 : ℚ) / 2 * 1)).tdiv 60).tdiv 60) ++ ":" ++
        zeroPadInt 2 (((toI32 ((-1 : ℚ) / 2 * 1)).tdiv 60).tmod 60) ++ ":" ++
        zeroPadInt 2 ((toI32 ((-1 : ℚ) / 2 * 1)).tmod 60) ++ "." ++
        zeroPadInt 2 ((toI32 ((-1 : ℚ) / 2 * 1 * 100)).tmod 100) = " 0:00:00.-50"
    rw [toI32_neg_half_mul, toI32_neg_half_mul_100]
    decide
  have h2 : timeSpecRepr 1 (-1 / 2) = "-1:59:59.50" := by
    rw [timeSpecRepr]
    norm_num
    decide
  exact ⟨h1, h2, by rw [h1, h2]; decide⟩

/-- C3 (amended): whenever `seconds = v * scaleFactor` is nonnegative (and
`seconds * 100` fits in an i32, as the saturating cast otherwise clamps), the
`Time` rendering agrees with the spec's formula — `subseconds =
floor(seconds*100) mod 100`, `minutes = floor(seconds) / 60`, `hours =
minutes / 60`, laid out as `H:MM:SS.ss` with a 2-character hour field and
zero-padded two-digit minutes, seconds and subseconds; in particular
`Time(1.0).format_value(3661.0) = " 1:01:01.00"`. -/
theorem time_format_matches_spec_on_nonneg :
    (∀ (scale v : ℚ), 0 ≤ v * scale → v * scale * 100 ≤ 2 ^ 31 - 1 →
      Format.format_value (Format.Time scale) v = timeSpecRepr scale v) ∧
    Format.format_value (Format.Time 1) 3661 = " 1:01:01.00" := by
  constructor
  · intro scale v h hle
    have h100 : (0 : ℚ) ≤ v * scale * 100 := mul_nonneg h (by norm_num)
    have hf0 : (0 : ℤ) ≤ ⌊v * scale⌋ := Int.floor_nonneg.mpr h
    have hf0' : (0 : ℤ) ≤ ⌊v * scale * 100⌋ := Int.floor_nonneg.mpr h100
    have hub' : ⌊v * scale * 100⌋ ≤ 2 ^ 31 - 1 := by
      have h2 : ((2 : ℚ) ^ 31 - 1) = (((2 ^ 31 - 1 : ℤ) : ℚ)) := by push_cast; ring
      have h3 := Int.floor_le_floor (α := ℚ) hle
      rw [h2, Int.floor_intCast] at h3
      exact h3
    have e2 : toI32 (v * scale * 100) = ⌊v * scale * 100⌋ := by
      rw [toI32, ratTrunc, if_pos h100, i32Sat, if_neg (by omega), if_neg (by omega)]
    have hub : ⌊v * scale⌋ ≤ 2 ^ 31 - 1 := by
      have hvs : v * scale ≤ v * scale * 100 := by linarith
      exact le_trans (Int.floor_le_floor hvs) hub'
    have e1 : toI32 (v * scale) = ⌊v * scale⌋ := by
      rw [toI32, ratTrunc, if_pos h, i32Sat, if_neg (by omega), if_neg (by omega)]
    have hm0 : (0 : ℤ) ≤ ⌊v * scale⌋ / 60 := Int.ediv_nonneg hf0 (by norm_num)
    simp only [Format.format_value, timeSpecRepr]
    rw [e1, e2, Int.tdiv_eq_ediv hf0 (by norm_num), Int.tdiv_eq_ediv hm0 (by norm_num),
      Int.tmod_eq_emod hm0 (by norm_num), Int.tmod_eq_emod hf0 (by norm_num),
      Int.tmod_eq_emod hf0' (by norm_num)]
  · show padInt 2 (((toI32 ((3661 : ℚ) * 1)).tdiv 60).tdiv 60) ++ ":" ++
        zeroPadInt 2 (((toI32 ((3661 : ℚ) * 1)).tdiv 60).tmod 60) ++ ":" ++
        zeroPadInt 2 ((toI32 ((3661 : ℚ) * 1)).tmod 60) ++ "." ++
        zeroPadInt 2 ((toI32 ((3661 : ℚ) * 1 * 100)).tmod 100) = " 1:01:01.00"
    rw [toI32_3661_mul, toI32_3661_mul_100]
    decide

/-- C3 witness: the nonnegative-seconds agreement instantiated at scale 1 and
value 3661, with both hypotheses discharged. -/
theorem time_format_matches_spec_on_nonneg_witness :
    (0 : ℚ) ≤ 3661 * 1 ∧ ((3661 : ℚ) * 1 * 100 ≤ 2 ^ 31 - 1) ∧
      Format.format_value (Format.Time 1) 3661 = timeSpecRepr 1 3661 :=
  ⟨by norm_num, by norm_num,
   time_format_matches_spec_on_nonneg.1 1 3661 (by norm_num) (by norm_num)⟩

/-- C4: `to_angle(v) = 1.25 * π * (to_percent(v) - 0.5)` for every scale and
value, and on the 0..100 scale the endpoint angles are `-0.625π` and
`+0.625π`, antisymmetric around 0. -/
theorem to_angle_sweep :
    (∀ (s : Scale) (v : ℚ), s.to_angle v = 1.25 * Real.pi * ((s.to_percent v : ℝ) - 0.5)) ∧
    demoScale.to_angle 0 = -(0.625 * Real.pi) ∧
    demoScale.to_angle 100 = 0.625 * Real.pi ∧
    demoScale.to_angle 0 = -(demoScale.to_angle 100) := by
  refine ⟨fun s v => rfl, ?_, ?_, ?_⟩
  · rw [Scale.to_angle, demo_to_percent_0]
    push_cast
    ring
  · rw [Scale.to_angle, demo_to_percent_100]
    push_cast
    ring
  · rw [Scale.to_angle, Scale.to_angle, demo_to_percent_0, demo_to_percent_100]
    push_cast
    ring

/-- C5: logic evaluation scans the rules in order and returns the state of
the first rule that is bound to the gauge's channel and whose test is
satisfied by that channel's value, `State.Default` when none matches; the
spec's three concrete examples behave as stated. -/
theorem resolve_first_matching_rule :
    (∀ (rules : Logic) (c : String) (lookup : String → ℚ),
      resolve rules c lookup =
        match rules.find? (fun w => w.channel == c && w.test.satisfied (lookup c)) with
        | some w => w.state
        | none => State.Default) ∧
    resolve demoRules "temp" (fun _ => 150) = State.Alarm "hot" ∧
    resolve demoRules "temp" (fun _ => -10) = State.Alarm "cold" ∧
    resolve demoRules "temp" (fun _ => 50) = State.Default := by
  refine ⟨?_, by decide, by decide, by decide⟩
  intro rules c lookup
  induction rules with
  | nil => rfl
  | cons w rest ih =>
    by_cases hw : (w.channel == c && w.test.satisfied (lookup c)) = true
    · simp [resolve, hw, List.find?]
    · have hw' : (w.channel == c && w.test.satisfied (lookup c)) = false := by
        simpa using hw
      simp [resolve, hw', List.find?, ih]

/-- C6 counterexample: `Integer(2).format_value(12345.0)` renders `"12345"`,
a 5-character string: the field is not "exactly `width` characters" wide —
the Rust width is only a minimum and never truncates. -/
theorem integer_width_counterexample :
    Format.format_value (Format.Integer 2) 12345 = "12345" ∧
      (Format.format_value (Format.Integer 2) 12345).length ≠ 2 := by
  have h : Format.format_value (Format.Integer 2) 12345 = "12345" := by
    show padInt 2 (toI32 12345) = "12345"
    rw [toI32_12345]
    decide
  exact ⟨h, by rw [h]; decide⟩

/-- C6 (amended): `Integer(width).format_value(v)` truncates `v` toward zero
to a (saturating i32) signed integer and renders it right-justified,
space-padded, in a field of AT LEAST `width` characters; renderings wider
than `width` are kept whole. -/
theorem integer_format_minimum_width :
    (∀ (w : ℕ) (v : ℚ),
      Format.format_value (Format.Integer w) v =
        String.mk (List.replicate (w - (intRepr (toI32 v)).length) ' ') ++ intRepr (toI32 v) ∧
      w ≤ (Format.format_value (Format.Integer w) v).length) ∧
    Format.format_value (Format.Integer 5) 42 = "   42" ∧
    Format.format_value (Format.Integer 3) (-7 / 2) = " -3" ∧
    Format.format_value (Format.Integer 2) 12345 = "12345" := by
  refine ⟨fun w v => ⟨rfl, ?_⟩, ?_, ?_, ?_⟩
  · have hfv : Format.format_value (Format.Integer w) v = padLeftWith ' ' w (intRepr (toI32 v)) :=
      rfl
    rw [hfv, length_padLeftWith]
    exact le_max_left _ _
  · show padInt 5 (toI32 42) = "   42"
    rw [toI32_42]
    decide
  · show padInt 3 (toI32 (-7 / 2)) = " -3"
    rw [toI32_neg_seven_halves]
    decide
  · show padInt 2 (toI32 12345) = "12345"
    rw [toI32_12345]
    decide

/-- C7: `append` concatenates the extra text onto the label's text payload,
preserving the variant and its size and color fields, with `None` becoming
`Plain`; the spec's two concrete examples hold. -/
theorem label_append_preserves_variant :
    (∀ (t x : String), (Label.Plain t).append x = Label.Plain (t ++ x)) ∧
    (∀ (t x : String) (s : ℚ), (Label.Sized t s).append x = Label.Sized (t ++ x) s) ∧
    (∀ (t x : String) (s : ℚ) (c : Color),
      (Label.Styled t s c).append x = Label.Styled (t ++ x) s c) ∧
    (∀ x : String, Label.None.append x = Label.Plain x) ∧
    Label.None.append "x" = Label.Plain "x" ∧
    (Label.Sized "a" 10).append "b" = Label.Sized "ab" 10 :=
  ⟨fun _ _ => rfl, fun _ _ _ => rfl, fun _ _ _ _ => rfl, fun _ => rfl, rfl, rfl⟩

/-- C8: `center`, `radius` and `inset` compute exactly the claimed formulas —
`inset` shifts `x` and `y` by `p` and shrinks `width` and `height` by `2p`
with no guard against negative results — and the spec's concrete examples
hold (insetting the 100 by 50 bounds by 60 leaves a negative width). -/
theorem bounds_geometry :
    (∀ b : Bounds, b.center = (b.x + b.width * 0.5, b.y + b.height * 0.5)) ∧
    (∀ b : Bounds, b.radius = Min.min b.width b.height * 0.5) ∧
    (∀ (b : Bounds) (p : ℚ),
      b.inset p = Bounds.mk (b.x + p) (b.y + p) (b.width - 2 * p) (b.height - 2 * p)) ∧
    (Bounds.mk 0 0 100 50).inset 5 = Bounds.mk 5 5 90 40 ∧
    (Bounds.mk 0 0 100 50).radius = 25 ∧
    ((Bounds.mk 0 0 100 50).inset 60).width < 0 := by
  refine ⟨fun b => rfl, fun b => rfl, fun b p => ?_, ?_, ?_, ?_⟩
  · simp [Bounds.inset, Bounds.mk.injEq, mul_comm]
  · simp only [Bounds.inset, Bounds.mk.injEq]
    norm_num
  · simp [Bounds.radius, min_def]
    norm_num
  · simp [Bounds.inset]
    norm_num

/-- C9: the clamp against the scale's own endpoints does not confine the
percent to the unit interval: on the 0..100 scale, value 150 yields
`to_percent = 1.5 > 1`. -/
theorem to_percent_exceeds_one :
    demoScale.to_percent 150 = 3 / 2 ∧ 1 < demoScale.to_percent 150 := by
  constructor <;> norm_num [demoScale, Scale.to_percent, Scale.range, min_def, max_def]

/-- C10: insetting preserves the center point: the inset offsets `x` by `p`
while the halved width shrinks by `p`, and likewise vertically. -/
theorem inset_preserves_center (b : Bounds) (p : ℚ) : (b.inset p).center = b.center := by
  simp only [Bounds.inset, Bounds.center, Prod.mk.injEq]
  constructor <;> ring

end UDash
